import Mathlib

/-!
Shallow embedding of the nola virtual-actor runtime core, translated from
the Go sources (virtual/registry/kv_registry.go, virtual/activations.go and
the environment file), together with theorems settling the specification
claims about it.

Conventions:
- Go `int64` values (version stamps, server versions, durations) are
  modelled as `Int`; `uint64` generations as `Nat`. The quantities involved
  (microsecond-scale version stamps, generation counters) are far below the
  wrap-around range, so overflow is not modelled.
- Go `error` returns become `Except` with an inductive error type; a Go
  `panic` becomes an outer `Option` (`none` = panic).
- The transactional KV store backing the registry is an external
  collaborator; a registry operation is modelled as an atomic function on a
  `RegState`, with the single version stamp `vs` that the store serves for
  the whole transaction passed as an argument.
-/

/-- Duration, in microseconds, of `HeartbeatTTL = 5 * time.Second` from
kv_registry.go (version stamps tick at ~1/microsecond). -/
def HeartbeatTTLMicros : Int := 5000000

/-- Model of `versionSince(curr, prev)` from kv_registry.go: returns the
elapsed duration `curr - prev` (in microseconds), and panics (`none`) when
the difference is negative. -/
def versionSince (curr prev : Int) : Option Int :=
  if curr - prev < 0 then none else some (curr - prev)

/-- Go struct `HeartbeatState` (registry/types.go): data accompanying a
server heartbeat. -/
structure HeartbeatStateG where
  numActivatedActors : Int
  address : String
  deriving DecidableEq, Repr

/-- Go struct `serverState` (kv_registry.go): the per-server record stored
under the server key. -/
structure ServerState where
  serverID : String
  lastHeartbeatedAt : Int
  heartbeatState : HeartbeatStateG
  serverVersion : Int
  deriving DecidableEq, Repr

/-- Zero value of `serverState`, as produced by Go when the record is
absent and the variable is left at its zero value. -/
def zeroServerState : ServerState :=
  { serverID := ""
    lastHeartbeatedAt := 0
    heartbeatState := { numActivatedActors := 0, address := "" }
    serverVersion := 0 }

/-- Go struct `activation` (kv_registry.go): the activation stored inside
an actor record (only the server ID in this version of the code). -/
structure ActivationG where
  serverID : String
  deriving DecidableEq, Repr

/-- Go struct `ModuleOptions` (registry/types.go). -/
structure ModuleOptionsG where
  allowEmptyModuleBytes : Bool
  deriving DecidableEq, Repr

/-- Go struct `registeredActor` (kv_registry.go). `ActorOptions` is an
empty struct in types/req.go and is omitted. -/
structure RegisteredActor where
  moduleID : String
  generation : Nat
  activation : ActivationG
  deriving DecidableEq, Repr

/-- Go struct `registeredModule` (kv_registry.go): what `RegisterModule`
JSON-marshals and shards into parts. Bytes are modelled as `List Nat`. -/
structure RegisteredModule where
  bytes : List Nat
  opts : ModuleOptionsG
  deriving DecidableEq, Repr

/-- Go struct `HeartbeatResult` (registry/types.go). -/
structure HeartbeatResultG where
  versionStamp : Int
  heartbeatTTL : Int
  serverVersion : Int
  deriving DecidableEq, Repr

/-- An `types.ActorReference` as constructed by
`types.NewActorReference(serverID, serverVersion, serverAddress, namespace,
moduleID, actorID, generation)` in EnsureActivation. -/
structure ActorReference where
  serverID : String
  serverVersion : Int
  address : String
  nspace : String
  moduleID : String
  actorID : String
  generation : Nat
  deriving DecidableEq, Repr

/-- Errors surfaced by the registry operations; the Go code produces
`fmt.Errorf` strings which the callers and tests distinguish by kind
(e.g. `IsActorDoesNotExistErr`). -/
inductive RegErr where
  | moduleAlreadyExists
  | moduleNotFound
  | actorAlreadyExists
  | actorNotFound
  | noLiveServers
  | decodeFailure
  deriving DecidableEq, Repr

/-- State of the registry's backing KV store, projected onto its record
families (keys are tuple-packed in Go; each family is modelled as a map).
`modules` holds, per `(namespace, moduleID)`, the list of stored value
parts in part-index order (`[]` = no parts stored). `servers` is the list
of server records in iteration order of the `("servers", ...)` prefix, with
at most one record per server ID. -/
structure RegState where
  modules : String → String → List (List Nat)
  actors : String → String → Option RegisteredActor
  servers : List ServerState

/-- Lookup of the server record stored for `sid` (the `tr.get` on
`getServerKey(sid)`). -/
def findServer (st : RegState) (sid : String) : Option ServerState :=
  st.servers.find? (fun s => s.serverID = sid)

/-- Store (`tr.put`) of a server record: replaces the existing record for
the same server ID, or appends a new one. -/
def putServer : List ServerState → ServerState → List ServerState
  | [], s => [s]
  | x :: xs, s => if x.serverID = s.serverID then s :: xs else x :: putServer xs s

/-- Self-delimiting encoding of a byte list (unary length marker followed
by the bytes). Together with `encodeModule` this is a concrete stand-in
for `json.Marshal` on `registeredModule` — the codec itself is external
stdlib code; only injectivity and stability matter to the registry. -/
def encodeLen (l : List Nat) : List Nat :=
  List.replicate l.length 1 ++ 0 :: l

/-- Inverse of `encodeLen`: reads the unary length marker, returning the
decoded length and the remainder. -/
def decodeLen : List Nat → Option (Nat × List Nat)
  | 0 :: rest => some (0, rest)
  | 1 :: rest =>
    match decodeLen rest with
    | some (n, r) => some (n + 1, r)
    | none => none
  | _ => none

/-- Stand-in for `json.Marshal(&registeredModule{...})`: one header byte
for the options flag, then the length-prefixed module bytes. Always
nonempty, as a JSON object encoding is. -/
def encodeModule (rm : RegisteredModule) : List Nat :=
  (if rm.opts.allowEmptyModuleBytes then 1 else 0) :: encodeLen rm.bytes

/-- Stand-in for `json.Unmarshal` into `registeredModule`. -/
def decodeModule (l : List Nat) : Option RegisteredModule :=
  match l with
  | [] => none
  | b :: rest =>
    if b ≤ 1 then
      match decodeLen rest with
      | some (n, r) =>
        if r.length = n then
          some { bytes := r, opts := { allowEmptyModuleBytes := b = 1 } }
        else none
      | none => none
    else none

/-- The sharding loop of `RegisterModule` (kv_registry.go): repeatedly
takes `min(99_999, len(marshaled))` bytes as the next part until nothing
remains. -/
def chunkBytes (l : List Nat) : List (List Nat) :=
  match l with
  | [] => []
  | x :: xs => (x :: xs).take 99999 :: chunkBytes ((x :: xs).drop 99999)
termination_by l.length
decreasing_by
  simp [List.length_drop]
  omega

/-- Model of `kvRegistry.RegisterModule`: refuses to overwrite an existing
module unless `AllowEmptyModuleBytes` makes re-registration idempotent;
otherwise marshals the module and writes it sharded into parts. -/
def registerModule (st : RegState) (ns mid : String) (moduleBytes : List Nat)
    (opts : ModuleOptionsG) : Except RegErr RegState :=
  if st.modules ns mid ≠ [] then
    if opts.allowEmptyModuleBytes then .ok st
    else .error .moduleAlreadyExists
  else
    let marshaled := encodeModule { bytes := moduleBytes, opts := opts }
    .ok { st with
          modules := fun ns2 mid2 =>
            if ns2 = ns ∧ mid2 = mid then chunkBytes marshaled
            else st.modules ns2 mid2 }

/-- Model of `kvRegistry.GetModule`: concatenates the stored parts in
part-index order; fails not-found when zero parts were iterated;
unmarshals the reassembled bytes. -/
def getModule (st : RegState) (ns mid : String) : Except RegErr RegisteredModule :=
  let parts := st.modules ns mid
  if parts.length = 0 then .error .moduleNotFound
  else
    match decodeModule parts.flatten with
    | some rm => .ok rm
    | none => .error .decodeFailure

/-- Model of `kvRegistry.CreateActor`: requires the actor to be absent and
the module's part 0 to exist, then stores a fresh record with
`Generation = 1` and an empty activation. -/
def createActor (st : RegState) (ns aid mid : String) : Except RegErr RegState :=
  if (st.actors ns aid).isSome then .error .actorAlreadyExists
  else if st.modules ns mid = [] then .error .moduleNotFound
  else
    .ok { st with
          actors := fun ns2 a2 =>
            if ns2 = ns ∧ a2 = aid then
              some { moduleID := mid, generation := 1, activation := { serverID := "" } }
            else st.actors ns2 a2 }

/-- Model of `kvRegistry.IncGeneration`: not-found when the actor is
absent, else bumps the stored generation by one. -/
def incGeneration (st : RegState) (ns aid : String) : Except RegErr RegState :=
  match st.actors ns aid with
  | none => .error .actorNotFound
  | some ra =>
    .ok { st with
          actors := fun ns2 a2 =>
            if ns2 = ns ∧ a2 = aid then some { ra with generation := ra.generation + 1 }
            else st.actors ns2 a2 }

/-- The live-server scan of `EnsureActivation`: iterates all server
records, keeping those whose last heartbeat is within the TTL of `vs`;
`none` when `versionSince` panics on some record. -/
def liveServersOf (servers : List ServerState) (vs : Int) : Option (List ServerState) :=
  match servers with
  | [] => some []
  | s :: rest =>
    match versionSince vs s.lastHeartbeatedAt with
    | none => none
    | some since =>
      match liveServersOf rest vs with
      | none => none
      | some live =>
        if since < HeartbeatTTLMicros then some (s :: live) else some live

/-- The `sort.Slice` by ascending `NumActivatedActors` followed by taking
element 0, modelled as selecting the first record attaining the minimum. -/
def pickMin : List ServerState → Option ServerState
  | [] => none
  | s :: rest =>
    match pickMin rest with
    | none => some s
    | some m =>
      if s.heartbeatState.numActivatedActors ≤ m.heartbeatState.numActivatedActors then some s
      else some m

/-- Model of `kvRegistry.EnsureActivation` within one transaction reading
version stamp `vs`: reuses a still-live existing activation (reading
server version and address from the server record) or places the actor on
the live server with the fewest activated actors, writing the new
activation back into the actor record. Outer `none` models the
`versionSince` panic. -/
def ensureActivation (st : RegState) (vs : Int) (ns aid : String) :
    Option (Except RegErr (RegState × ActorReference)) :=
  match st.actors ns aid with
  | none => some (.error .actorNotFound)
  | some ra =>
    let serverOpt := findServer st ra.activation.serverID
    let server := serverOpt.getD zeroServerState
    match versionSince vs server.lastHeartbeatedAt with
    | none => none
    | some since =>
      if ra.activation.serverID ≠ "" ∧ serverOpt.isSome ∧ since < HeartbeatTTLMicros then
        some (.ok (st,
          { serverID := ra.activation.serverID
            serverVersion := server.serverVersion
            address := server.heartbeatState.address
            nspace := ns
            moduleID := ra.moduleID
            actorID := aid
            generation := ra.generation }))
      else
        match liveServersOf st.servers vs with
        | none => none
        | some live =>
          match pickMin live with
          | none => some (.error .noLiveServers)
          | some picked =>
            some (.ok
              ({ st with
                 actors := fun ns2 a2 =>
                   if ns2 = ns ∧ a2 = aid then
                     some { ra with activation := { serverID := picked.serverID } }
                   else st.actors ns2 a2 },
               { serverID := picked.serverID
                 serverVersion := picked.serverVersion
                 address := picked.heartbeatState.address
                 nspace := ns
                 moduleID := ra.moduleID
                 actorID := aid
                 generation := ra.generation }))

/-- Model of `kvRegistry.Heartbeat` within one transaction reading version
stamp `vs`: initializes a fresh record with `ServerVersion = 1` on the
first heartbeat, bumps the version when the previous heartbeat is at least
one TTL old, and always stores `vs` and the supplied heartbeat state.
Outer `none` models the `versionSince` panic. -/
def heartbeat (st : RegState) (vs : Int) (sid : String) (hb : HeartbeatStateG) :
    Option (RegState × HeartbeatResultG) :=
  let state0 :=
    match findServer st sid with
    | none => { zeroServerState with serverID := sid, serverVersion := 1, lastHeartbeatedAt := vs }
    | some s => s
  match versionSince vs state0.lastHeartbeatedAt with
  | none => none
  | some since =>
    let state1 :=
      if since ≥ HeartbeatTTLMicros then { state0 with serverVersion := state0.serverVersion + 1 }
      else state0
    let state2 := { state1 with lastHeartbeatedAt := vs, heartbeatState := hb }
    some ({ st with servers := putServer st.servers state2 },
      { versionStamp := vs
        heartbeatTTL := HeartbeatTTLMicros
        serverVersion := state2.serverVersion })

/-- The distinguished DNS wildcard server ID compared against in
`InvokeActorDirect`. Modelled from the spec: the `dnsregistry` package
defining `DNSServerID` is not among the sources; the spec only requires a
distinguished sentinel value, so any fixed non-empty string serves. -/
def DNSServerID : String := "DNS"

/-- Errors returned by `environment.InvokeActorDirect` before delegation. -/
inductive InvokeDirectErr where
  | emptyServerID
  | wrongServer
  | nonPositiveVersionStamp
  | staleHeartbeat
  | serverVersionMismatch
  deriving DecidableEq, Repr

/-- The per-environment state read by `InvokeActorDirect`: the server's own
ID and the heartbeat result most recently stored by the heartbeat loop. -/
structure EnvState where
  serverID : String
  heartbeat : HeartbeatResultG
  deriving DecidableEq, Repr

/-- Model of `environment.InvokeActorDirect` (ownership gate): the checks
performed, in source order, before delegating to the activations manager;
`.ok ()` means the call is delegated to `activations.invoke`. -/
def invokeActorDirect (env : EnvState) (versionStamp : Int) (serverID : String)
    (serverVersion : Int) : Except InvokeDirectErr Unit :=
  if serverID = "" then .error .emptyServerID
  else if serverID ≠ env.serverID ∧ serverID ≠ DNSServerID then .error .wrongServer
  else if versionStamp ≤ 0 then .error .nonPositiveVersionStamp
  else if env.heartbeat.versionStamp + env.heartbeat.heartbeatTTL < versionStamp then
    .error .staleHeartbeat
  else if env.heartbeat.serverVersion ≠ serverVersion then .error .serverVersionMismatch
  else .ok ()

/-- The delegation condition exactly as claim C3 words it, for comparison
with the source-derived `invokeActorDirect`. -/
def c3ClaimCondition (env : EnvState) (versionStamp : Int) (serverID : String)
    (serverVersion : Int) : Prop :=
  (serverID = env.serverID ∨ serverID = DNSServerID) ∧
    0 < versionStamp ∧
    versionStamp ≤ env.heartbeat.versionStamp + env.heartbeat.heartbeatTTL ∧
    env.heartbeat.serverVersion = serverVersion

instance (env : EnvState) (versionStamp : Int) (serverID : String) (serverVersion : Int) :
    Decidable (c3ClaimCondition env versionStamp serverID serverVersion) := by
  unfold c3ClaimCondition
  infer_instance

/-- Activation tuple stored in an actor record as the spec's data model
describes it. Modelled from the spec: the fenced five-argument
`BeginTransaction` implementation is absent from the sources (only its
interface declaration in registry/types.go and its tests are present, and
the stored `activation` struct in the present kv_registry.go predates the
fencing token), so the activation carries `(server_id, server_version)` as
spec §3 states. -/
structure ActivationTuple where
  serverID : String
  serverVersion : Int
  deriving DecidableEq, Repr

/-- Actor record as seen by the fenced `BeginTransaction`. Modelled from
the spec (see `ActivationTuple`). -/
structure FencedActor where
  generation : Nat
  activation : ActivationTuple
  deriving DecidableEq, Repr

/-- Actor table consulted by the fenced `BeginTransaction`. Modelled from
the spec (see `ActivationTuple`). -/
structure FencedRegState where
  actors : String → String → Option FencedActor

/-- Errors of the fenced `BeginTransaction`. -/
inductive BeginTxErr where
  | notFound
  | fencingMismatch
  deriving DecidableEq, Repr

/-- Modelled from the spec: `begin_transaction(ns, actor_id,
caller_server_id, caller_server_version)` (spec §4.2). The actor-existence
check mirrors the present `kvRegistry.BeginTransaction`; the fencing check,
absent from the sources, follows the spec sentence: fail `FencingMismatch`
unless the caller tuple equals the actor's current activation tuple. -/
def beginTransaction (st : FencedRegState) (ns aid sid : String) (sv : Int) :
    Except BeginTxErr Unit :=
  match st.actors ns aid with
  | none => .error .notFound
  | some ra =>
    if ra.activation.serverID = sid ∧ ra.activation.serverVersion = sv then .ok ()
    else .error .fencingMismatch

/-- A single actor's KV storage: user key to stored value. -/
def ActorKV : Type := List Nat → Option (List Nat)

/-- An open actor KV transaction: the underlying storage snapshot plus the
transaction's write buffer (most recent write first). Modelled from the
spec: the `ActorKVTransaction` implementation backing `Put`/`Get`/
`Commit`/`Cancel` lives in the store adapter, which is not among the
sources; the spec requires `commit` to materialize all writes atomically
and `cancel` to discard them. -/
structure ActorTx where
  base : ActorKV
  writes : List (List Nat × List Nat)

/-- Transactional `Put`: records the write in the buffer. -/
def txPut (tx : ActorTx) (k v : List Nat) : ActorTx :=
  { tx with writes := (k, v) :: tx.writes }

/-- Transactional `Get`: reads the most recent buffered write for the key,
falling back to the underlying storage. -/
def txGet (tx : ActorTx) (k : List Nat) : Option (List Nat) :=
  match tx.writes.find? (fun e => e.1 = k) with
  | some e => some e.2
  | none => tx.base k

/-- Transactional `Commit`: materializes all buffered writes. -/
def txCommit (tx : ActorTx) : ActorKV :=
  fun k =>
    match tx.writes.find? (fun e => e.1 = k) with
    | some e => some e.2
    | none => tx.base k

/-- Transactional `Cancel`: discards the buffer. -/
def txCancel (tx : ActorTx) : ActorKV :=
  tx.base

/-- One KV call a handler makes through its host capabilities. -/
inductive KVOp where
  | put (k v : List Nat)
  | get (k : List Nat)
  deriving DecidableEq, Repr

/-- A handler body as the transaction sees it: the KV calls it performs,
and whether it returns an error. -/
structure Handler where
  ops : List KVOp
  fails : Bool

/-- Effect of a handler's KV calls on the open transaction. -/
def runOps (tx : ActorTx) : List KVOp → ActorTx
  | [] => tx
  | KVOp.put k v :: rest => runOps (txPut tx k v) rest
  | KVOp.get _ :: rest => runOps tx rest

/-- Modelled from the spec: one invocation of an actor handler under the
implicit per-invocation transaction (spec §4.3.2, §7; the invocation
wiring that begins the transaction, passes it to the handler and
commits/cancels it is absent from the present activations.go, which
predates it — the test harness's `Actor.Invoke` already receives the
transaction handle). The server begins a transaction at invocation start,
the handler's KV calls run inside it, and it is committed exactly when the
handler returns successfully and cancelled on any error. -/
def invokeWithTx (kv : ActorKV) (h : Handler) : ActorKV × Bool :=
  let tx := runOps { base := kv, writes := [] } h.ops
  if h.fails then (txCancel tx, false) else (txCommit tx, true)

/-- Cache entry of the activations manager: the cached generation and the
identity of the instantiated actor instance. -/
structure ActCacheState where
  nextInstID : Nat
  actors : String → Option (Nat × Nat)

/-- Result of `activations.invoke`: the updated cache, the instance the
operation was invoked on, and the instances that received `Close` during
the call. -/
structure ActInvokeOut where
  state : ActCacheState
  usedInst : Nat
  closed : List Nat

/-- Model of the generation handling in `activations.invoke`
(activations.go): reuse a cached instance whose generation is at least the
reference's; otherwise close and delete a stale instance and instantiate a
fresh one cached with the reference's generation. Module loading and the
`startup` call are abstracted as a successful instantiation yielding a
fresh instance identity (the module engine is an external collaborator). -/
def activationsInvoke (st : ActCacheState) (actorID : String) (gen : Nat) : ActInvokeOut :=
  match st.actors actorID with
  | some entry =>
    if entry.1 ≥ gen then
      { state := st, usedInst := entry.2, closed := [] }
    else
      { state :=
          { nextInstID := st.nextInstID + 1
            actors := fun a2 =>
              if a2 = actorID then some (gen, st.nextInstID) else st.actors a2 }
        usedInst := st.nextInstID
        closed := [entry.2] }
  | none =>
    { state :=
        { nextInstID := st.nextInstID + 1
          actors := fun a2 =>
            if a2 = actorID then some (gen, st.nextInstID) else st.actors a2 }
      usedInst := st.nextInstID
      closed := [] }

/-- The environment state touched by `environment.Close`: registration in
the process-local peer-router map, the heartbeat goroutine, the actor
instances cached in the activations manager, and the instances that have
received `Close`. -/
structure EnvCloseState where
  routerRegistered : Bool
  heartbeatRunning : Bool
  cachedActors : List Nat
  closedActors : List Nat
  deriving DecidableEq, Repr

/-- Model of `environment.Close`: removes the environment from the
peer-router map and shuts down the heartbeat goroutine; the activations
manager is not touched (the source carries a TODO that closing it needs to
be implemented). -/
def environmentClose (e : EnvCloseState) : EnvCloseState :=
  { e with routerRegistered := false, heartbeatRunning := false }

/-- The condition under which `EnsureActivation` keeps the existing
activation: the actor record names a server, that server's record exists,
and its last heartbeat is within the TTL of the transaction's version
stamp. -/
def stickyCond (st : RegState) (vs : Int) (ra : RegisteredActor) : Prop :=
  ra.activation.serverID ≠ "" ∧ (findServer st ra.activation.serverID).isSome ∧
    vs - ((findServer st ra.activation.serverID).getD zeroServerState).lastHeartbeatedAt <
      HeartbeatTTLMicros

instance (st : RegState) (vs : Int) (ra : RegisteredActor) : Decidable (stickyCond st vs ra) := by
  unfold stickyCond
  infer_instance

/-- The servers whose last heartbeat is within the TTL of `vs`. -/
def liveServers (st : RegState) (vs : Int) : List ServerState :=
  st.servers.filter (fun s => vs - s.lastHeartbeatedAt < HeartbeatTTLMicros)

/-- The reference `EnsureActivation` returns when it reuses a still-live
existing activation: the server ID comes from the actor record, the server
version and address from the server's current record. -/
def stickyRef (ns aid : String) (ra : RegisteredActor) (server : ServerState) : ActorReference :=
  { serverID := ra.activation.serverID
    serverVersion := server.serverVersion
    address := server.heartbeatState.address
    nspace := ns
    moduleID := ra.moduleID
    actorID := aid
    generation := ra.generation }

/-- The reference `EnsureActivation` returns when it places the actor on a
newly picked server. -/
def placedRef (ns aid : String) (ra : RegisteredActor) (picked : ServerState) : ActorReference :=
  { serverID := picked.serverID
    serverVersion := picked.serverVersion
    address := picked.heartbeatState.address
    nspace := ns
    moduleID := ra.moduleID
    actorID := aid
    generation := ra.generation }

/-- The registry state after `EnsureActivation` writes a new activation on
server `sid` into the actor record. -/
def setActivation (st : RegState) (ns aid : String) (ra : RegisteredActor) (sid : String) :
    RegState :=
  { st with
    actors := fun ns2 a2 =>
      if ns2 = ns ∧ a2 = aid then some { ra with activation := { serverID := sid } }
      else st.actors ns2 a2 }

/-- The registry state with the stored parts for one module replaced. -/
def setModuleParts (st : RegState) (ns mid : String) (parts : List (List Nat)) : RegState :=
  { st with
    modules := fun ns2 mid2 =>
      if ns2 = ns ∧ mid2 = mid then parts
      else st.modules ns2 mid2 }

/-- The registry state after `IncGeneration` bumps one actor. -/
def bumpGeneration (st : RegState) (ns aid : String) (ra : RegisteredActor) : RegState :=
  { st with
    actors := fun ns2 a2 =>
      if ns2 = ns ∧ a2 = aid then some { ra with generation := ra.generation + 1 }
      else st.actors ns2 a2 }

/-- One registry call in a history of generation-relevant operations. -/
inductive RegOp where
  | incGen (ns aid : String)
  | ensure (vs : Int) (ns aid : String)

/-- Applies one registry call to the state; a call that returns an error
(or panics) leaves the transactional store unchanged. -/
def applyRegOp (st : RegState) : RegOp → RegState
  | .incGen ns aid =>
    match incGeneration st ns aid with
    | .ok st2 => st2
    | .error _ => st
  | .ensure vs ns aid =>
    match ensureActivation st vs ns aid with
    | some (.ok (st2, _)) => st2
    | _ => st

/-- Applies a sequence of registry calls in order. -/
def applyRegOps (st : RegState) : List RegOp → RegState
  | [] => st
  | op :: rest => applyRegOps (applyRegOp st op) rest

/-- The generation observable for one actor (0 when the actor is absent;
stored generations start at 1). -/
def genObs (st : RegState) (ns aid : String) : Nat :=
  match st.actors ns aid with
  | some ra => ra.generation
  | none => 0

/-- A well-formed activations cache: every cached instance identity is
below the allocation counter. -/
def actCacheWF (st : ActCacheState) : Prop :=
  ∀ a2 g2 i2, st.actors a2 = some (g2, i2) → i2 < st.nextInstID

/-- Fixture: an environment whose gate state admits version stamp 1 from
caller tuple `("s1", 1)`. -/
def envW : EnvState :=
  { serverID := "s1"
    heartbeat := { versionStamp := 1, heartbeatTTL := 5000000, serverVersion := 1 } }

/-- Fixture: an environment constructed with the empty server ID. -/
def envEmptyID : EnvState :=
  { serverID := ""
    heartbeat := { versionStamp := 1, heartbeatTTL := 5000000, serverVersion := 1 } }

/-- Fixture: a fenced registry state holding one actor activated on
`("s1", 1)`. -/
def fencedStW : FencedRegState :=
  { actors := fun ns2 a2 =>
      if ns2 = "ns" ∧ a2 = "a" then
        some { generation := 1, activation := { serverID := "s1", serverVersion := 1 } }
      else none }

/-- Fixture: actor KV holding one key. -/
def kvW : ActorKV :=
  fun k => if k = [0] then some [7] else none

/-- Fixture: a handler that overwrites the key and then returns an error. -/
def handlerW : Handler :=
  { ops := [KVOp.put [0] [9]], fails := true }

/-- Fixture: an environment with one cached actor instance and no close
calls recorded. -/
def envClose0 : EnvCloseState :=
  { routerRegistered := true
    heartbeatRunning := true
    cachedActors := [1]
    closedActors := [] }

/-- Fixture: the empty registry state. -/
def regStEmpty : RegState :=
  { modules := fun _ _ => []
    actors := fun _ _ => none
    servers := [] }

/-- Fixture: a heartbeat payload. -/
def hbW : HeartbeatStateG :=
  { numActivatedActors := 3, address := "addr1" }

/-- Fixture: one registered actor without an activation, and two live
servers with different load. -/
def regStC4 : RegState :=
  { modules := fun _ _ => []
    actors := fun ns2 a2 =>
      if ns2 = "ns" ∧ a2 = "a" then
        some { moduleID := "m", generation := 1, activation := { serverID := "" } }
      else none
    servers :=
      [ { serverID := "s1", lastHeartbeatedAt := 4
          heartbeatState := { numActivatedActors := 5, address := "addr1" }, serverVersion := 1 },
        { serverID := "s2", lastHeartbeatedAt := 6
          heartbeatState := { numActivatedActors := 2, address := "addr2" }, serverVersion := 3 } ] }

/-- Fixture: an actor whose recorded activation points at a server with no
stored record, in a registry with no server records at all. -/
def regStC10 : RegState :=
  { modules := fun _ _ => []
    actors := fun ns2 a2 =>
      if ns2 = "ns" ∧ a2 = "a" then
        some { moduleID := "m", generation := 1, activation := { serverID := "s1" } }
      else none
    servers := [] }

/-- Fixture: an activations cache holding one instance at generation 1. -/
def actCacheW : ActCacheState :=
  { nextInstID := 5
    actors := fun a2 => if a2 = "a" then some (1, 2) else none }

/-- C3 (counterexample): the delegation condition exactly as the claim
states it holds for an environment whose own server ID is the empty
string and a caller passing that same ID, yet `InvokeActorDirect` rejects
the call: the code unconditionally rejects an empty caller server ID
before comparing it with its own. -/
theorem c3_invoke_direct_claim_counterexample :
    c3ClaimCondition envEmptyID 1 "" 1 ∧ invokeActorDirect envEmptyID 1 "" 1 ≠ .ok () := by
  constructor
  · exact ⟨Or.inl rfl, by decide, by decide, rfl⟩
  · simp [show invokeActorDirect envEmptyID 1 "" 1 = .error .emptyServerID from rfl]

/-- C3 (amended): `InvokeActorDirect` delegates to the activations manager
exactly when the caller server ID is non-empty and, as the claim lists,
it equals the receiving server's ID or the DNS wildcard sentinel, the
version stamp is positive and at most `heartbeat.version_stamp +
heartbeat_ttl`, and the caller's server version equals the heartbeat
state's; in every other case an error is returned without invoking the
actor. -/
theorem c3_invoke_direct_gate (env : EnvState) (V : Int) (sid : String) (sv : Int) :
    invokeActorDirect env V sid sv = .ok () ↔ sid ≠ "" ∧ c3ClaimCondition env V sid sv := by
  unfold invokeActorDirect c3ClaimCondition
  split_ifs with h1 h2 h3 h4 h5 <;> simp_all
  rcases eq_or_ne sid env.serverID with he | he
  · exact Or.inl he
  · exact Or.inr (h2 he)

/-- C3 (witness): the gate theorem applied at a concrete accepting
environment and call. -/
theorem c3_invoke_direct_gate_witness : invokeActorDirect envW 1 "s1" 1 = .ok () :=
  (c3_invoke_direct_gate envW 1 "s1" 1).mpr (by exact ⟨by decide, Or.inl rfl, by decide, by decide, rfl⟩)

/-- C1: `BeginTransaction(ns, a, sid, sv)` fails not-found when the actor
is absent, fails with a fencing mismatch when `(sid, sv)` differs from the
actor's current activation tuple, and succeeds exactly when the actor
exists and `(sid, sv)` equals that tuple. -/
theorem c1_begin_transaction_fencing (st : FencedRegState) (ns aid sid : String) (sv : Int) :
    (st.actors ns aid = none → beginTransaction st ns aid sid sv = .error .notFound) ∧
    (∀ ra, st.actors ns aid = some ra →
      ¬(ra.activation.serverID = sid ∧ ra.activation.serverVersion = sv) →
        beginTransaction st ns aid sid sv = .error .fencingMismatch) ∧
    (beginTransaction st ns aid sid sv = .ok () ↔
      ∃ ra, st.actors ns aid = some ra ∧
        ra.activation.serverID = sid ∧ ra.activation.serverVersion = sv) := by
  refine ⟨?_, ?_, ?_⟩
  · intro h
    simp [beginTransaction, h]
  · intro ra hra hne
    simp [beginTransaction, hra, hne]
  · constructor
    · intro hok
      cases hra : st.actors ns aid with
      | none => simp [beginTransaction, hra] at hok
      | some ra =>
        refine ⟨ra, rfl, ?_⟩
        by_contra hne
        simp [beginTransaction, hra, hne] at hok
    · rintro ⟨ra, hra, hmatch⟩
      simp [beginTransaction, hra, hmatch]

/-- C1 (witness): the fencing theorem applied at a concrete state: the
stored tuple succeeds, a missing actor is not-found, and a wrong tuple is
a fencing mismatch. -/
theorem c1_begin_transaction_fencing_witness :
    beginTransaction fencedStW "ns" "a" "s1" 1 = .ok () ∧
    beginTransaction fencedStW "ns" "b" "s1" 1 = .error .notFound ∧
    beginTransaction fencedStW "ns" "a" "s1" 2 = .error .fencingMismatch :=
  ⟨(c1_begin_transaction_fencing fencedStW "ns" "a" "s1" 1).2.2.mpr
      ⟨_, rfl, rfl, rfl⟩,
    (c1_begin_transaction_fencing fencedStW "ns" "b" "s1" 1).1 rfl,
    (c1_begin_transaction_fencing fencedStW "ns" "a" "s1" 2).2.1 _ rfl (by decide)⟩

/-- Helper: a handler's KV calls never change the transaction's view of
the underlying storage. -/
theorem runOps_base (ops : List KVOp) (tx : ActorTx) : (runOps tx ops).base = tx.base := by
  induction ops generalizing tx with
  | nil => rfl
  | cons op rest ih =>
    cases op with
    | put k v => simpa [runOps, txPut] using ih (txPut tx k v)
    | get k => simpa [runOps] using ih tx

/-- Helper: a transactional read of a key that the handler has not written
sees through to the state the transaction started from. -/
theorem txGet_runOps_of_no_put (ops : List KVOp) (tx : ActorTx) (k : List Nat)
    (h : ∀ v, KVOp.put k v ∉ ops) : txGet (runOps tx ops) k = txGet tx k := by
  induction ops generalizing tx with
  | nil => rfl
  | cons op rest ih =>
    cases op with
    | put k2 v2 =>
      have hk : k2 ≠ k := by
        intro he
        exact h v2 (by simp [he])
      rw [runOps, ih (txPut tx k2 v2) (fun v hv => h v (List.mem_cons_of_mem _ hv))]
      simp [txGet, txPut, List.find?, hk]
    | get k2 =>
      rw [runOps]
      exact ih tx (fun v hv => h v (List.mem_cons_of_mem _ hv))

/-- C2: an invocation whose handler performed `put` calls and then
returned an error leaves the actor's KV storage exactly as it was (the
implicit transaction is cancelled), so a `get` of any key the later
successful invocation has not itself overwritten returns the value (or
absence) that preceded the failed invocation. -/
theorem c2_implicit_rollback (kv : ActorKV) (h : Handler) (hf : h.fails = true) :
    (invokeWithTx kv h).1 = kv ∧
    ∀ (pre : List KVOp) (k : List Nat), (∀ v, KVOp.put k v ∉ pre) →
      txGet (runOps { base := (invokeWithTx kv h).1, writes := [] } pre) k = kv k := by
  have hbase : (invokeWithTx kv h).1 = kv := by
    simp only [invokeWithTx, hf, if_pos]
    exact runOps_base h.ops { base := kv, writes := [] }
  refine ⟨hbase, ?_⟩
  intro pre k hnp
  rw [txGet_runOps_of_no_put pre _ k hnp, hbase]
  rfl

/-- C2 (witness): a handler that overwrites key `[0]` and fails leaves the
storage untouched, and a later read of `[0]` still sees the old value. -/
theorem c2_implicit_rollback_witness :
    (invokeWithTx kvW handlerW).1 = kvW ∧
    txGet (runOps { base := (invokeWithTx kvW handlerW).1, writes := [] } [KVOp.get [0]]) [0]
      = some [7] :=
  ⟨(c2_implicit_rollback kvW handlerW rfl).1,
    by
      rw [(c2_implicit_rollback kvW handlerW rfl).2 [KVOp.get [0]] [0]
        (by intro v hv; simp at hv)]
      rfl⟩

/-- C6: after `environment.Close()` on an environment with a cached actor
instance, the environment is deregistered from the peer-router map and the
heartbeat task is stopped, but the cached actor instance has not received
a close call — the source's own TODO records that closing the activations
is unimplemented, while the spec requires every cached actor to receive
`close` during a graceful shutdown. -/
theorem c6_close_skips_cached_actors :
    (environmentClose envClose0).routerRegistered = false ∧
    (environmentClose envClose0).heartbeatRunning = false ∧
    (environmentClose envClose0).cachedActors = [1] ∧
    (environmentClose envClose0).closedActors = [] :=
  ⟨rfl, rfl, rfl, rfl⟩

/-- C8: an invocation carrying generation `g` reuses (and invokes) the
cached instance when its cached generation is at least `g`; when the
cached generation is lower, the stale instance is closed and removed, a
fresh instance is instantiated and cached with generation `g`, and the
operation runs on the fresh instance. -/
theorem c8_invoke_generation (st : ActCacheState) (aid : String) (gen g0 inst : Nat)
    (hc : st.actors aid = some (g0, inst)) :
    (g0 ≥ gen → activationsInvoke st aid gen = { state := st, usedInst := inst, closed := [] }) ∧
    (g0 < gen →
      activationsInvoke st aid gen =
        { state :=
            { nextInstID := st.nextInstID + 1
              actors := fun a2 => if a2 = aid then some (gen, st.nextInstID) else st.actors a2 }
          usedInst := st.nextInstID
          closed := [inst] } ∧
      (actCacheWF st → st.nextInstID ≠ inst)) := by
  refine ⟨?_, ?_⟩
  · intro hge
    simp [activationsInvoke, hc, hge]
  · intro hlt
    refine ⟨?_, ?_⟩
    · simp [activationsInvoke, hc, show ¬ g0 ≥ gen from not_le.mpr hlt]
    · intro hwf
      have := hwf aid g0 inst hc
      omega

/-- C8 (witness): the generation theorem applied at a concrete cache:
generation 1 reuses instance 2; generation 3 closes instance 2 and runs on
the fresh instance 5. -/
theorem c8_invoke_generation_witness :
    activationsInvoke actCacheW "a" 1 = { state := actCacheW, usedInst := 2, closed := [] } ∧
    activationsInvoke actCacheW "a" 3 =
      { state :=
          { nextInstID := 6
            actors := fun a2 => if a2 = "a" then some (3, 5) else actCacheW.actors a2 }
        usedInst := 5
        closed := [2] } :=
  ⟨(c8_invoke_generation actCacheW "a" 1 1 2 rfl).1 (by decide),
    ((c8_invoke_generation actCacheW "a" 3 1 2 rfl).2 (by decide)).1⟩

/-- Helper: a found server record carries the ID it was looked up by. -/
theorem findServer_eq_serverID (st : RegState) (sid : String) (s : ServerState)
    (h : findServer st sid = some s) : s.serverID = sid := by
  have := List.find?_some h
  simpa using this

/-- Helper: a found server record is one of the stored records. -/
theorem findServer_mem (st : RegState) (sid : String) (s : ServerState)
    (h : findServer st sid = some s) : s ∈ st.servers :=
  List.mem_of_find?_eq_some h

/-- Helper: after storing a record, looking its server ID up finds exactly
that record. -/
theorem find_putServer (l : List ServerState) (s : ServerState) :
    (putServer l s).find? (fun r => r.serverID = s.serverID) = some s := by
  induction l with
  | nil => simp [putServer, List.find?]
  | cons x xs ih =>
    by_cases hx : x.serverID = s.serverID
    · simp [putServer, hx, List.find?]
    · simp [putServer, hx, List.find?, ih]

/-- C5: `Heartbeat` returns server version 1 on a server's first
heartbeat; on a later heartbeat it bumps the stored server version by
exactly one when the version stamp is at least one TTL past the stored
`last_heartbeat_at` and keeps it unchanged otherwise; and it always stores
the current version stamp as `last_heartbeat_at` together with the
supplied heartbeat state. -/
theorem c5_heartbeat_server_version (st : RegState) (vs : Int) (sid : String)
    (hb : HeartbeatStateG) :
    (findServer st sid = none →
      ∃ st2, heartbeat st vs sid hb =
          some (st2,
            { versionStamp := vs, heartbeatTTL := HeartbeatTTLMicros, serverVersion := 1 }) ∧
        findServer st2 sid =
          some { serverID := sid, lastHeartbeatedAt := vs, heartbeatState := hb,
                 serverVersion := 1 }) ∧
    (∀ s, findServer st sid = some s → s.lastHeartbeatedAt ≤ vs →
      ∃ st2, heartbeat st vs sid hb =
          some (st2,
            { versionStamp := vs, heartbeatTTL := HeartbeatTTLMicros,
              serverVersion :=
                if vs - s.lastHeartbeatedAt ≥ HeartbeatTTLMicros then s.serverVersion + 1
                else s.serverVersion }) ∧
        findServer st2 sid =
          some { serverID := sid, lastHeartbeatedAt := vs, heartbeatState := hb,
                 serverVersion :=
                   if vs - s.lastHeartbeatedAt ≥ HeartbeatTTLMicros then s.serverVersion + 1
                   else s.serverVersion }) := by
  constructor
  · intro hnone
    refine ⟨{ st with servers := putServer st.servers ⟨sid, vs, hb, 1⟩ }, ?_, ?_⟩
    · simp [heartbeat, hnone, versionSince, zeroServerState, HeartbeatTTLMicros]
    · have h2 := find_putServer st.servers ⟨sid, vs, hb, 1⟩
      simpa [findServer] using h2
  · intro s hsome hle
    have hid : s.serverID = sid := findServer_eq_serverID st sid s hsome
    by_cases hbump : vs - s.lastHeartbeatedAt ≥ HeartbeatTTLMicros
    · refine ⟨{ st with servers := putServer st.servers ⟨sid, vs, hb, s.serverVersion + 1⟩ }, ?_, ?_⟩
      · simp [heartbeat, hsome, versionSince, hbump, hid,
          show ¬ vs - s.lastHeartbeatedAt < 0 by omega]
      · have h2 := find_putServer st.servers ⟨sid, vs, hb, s.serverVersion + 1⟩
        simp only [if_pos hbump]
        simpa [findServer] using h2
    · refine ⟨{ st with servers := putServer st.servers ⟨sid, vs, hb, s.serverVersion⟩ }, ?_, ?_⟩
      · simp [heartbeat, hsome, versionSince, hbump, hid,
          show ¬ vs - s.lastHeartbeatedAt < 0 by omega]
      · have h2 := find_putServer st.servers ⟨sid, vs, hb, s.serverVersion⟩
        simp only [if_neg hbump]
        simpa [findServer] using h2

/-- C5 (witness): the heartbeat theorem applied to a first heartbeat on an
empty registry. -/
theorem c5_heartbeat_server_version_witness :
    findServer regStEmpty "s1" = none ∧
    ∃ st2, heartbeat regStEmpty 10 "s1" hbW =
        some (st2,
          { versionStamp := 10, heartbeatTTL := HeartbeatTTLMicros, serverVersion := 1 }) ∧
      findServer st2 "s1" =
        some { serverID := "s1", lastHeartbeatedAt := 10, heartbeatState := hbW,
               serverVersion := 1 } :=
  ⟨rfl, (c5_heartbeat_server_version regStEmpty 10 "s1" hbW).1 rfl⟩

/-- Helper: the sharded parts reassemble to the original bytes. -/
theorem chunkBytes_flatten_aux (n : Nat) :
    ∀ l : List Nat, l.length ≤ n → (chunkBytes l).flatten = l := by
  induction n with
  | zero =>
    intro l h
    have : l = [] := List.eq_nil_of_length_eq_zero (Nat.le_zero.mp h)
    subst this
    simp [chunkBytes]
  | succ n ih =>
    intro l h
    cases l with
    | nil => simp [chunkBytes]
    | cons x xs =>
      rw [chunkBytes]
      simp only [List.flatten_cons]
      rw [ih _ (by simp only [List.length_drop, List.length_cons] at h ⊢; omega)]
      exact List.take_append_drop _ _

/-- Helper: the sharded parts reassemble to the original bytes. -/
theorem chunkBytes_flatten (l : List Nat) : (chunkBytes l).flatten = l :=
  chunkBytes_flatten_aux l.length l le_rfl

/-- Helper: every sharded part holds at most 99,999 bytes. -/
theorem chunkBytes_length_le_aux (n : Nat) :
    ∀ l : List Nat, l.length ≤ n → ∀ c ∈ chunkBytes l, c.length ≤ 99999 := by
  induction n with
  | zero =>
    intro l h c hc
    have : l = [] := List.eq_nil_of_length_eq_zero (Nat.le_zero.mp h)
    subst this
    simp [chunkBytes] at hc
  | succ n ih =>
    intro l h c hc
    cases l with
    | nil => simp [chunkBytes] at hc
    | cons x xs =>
      rw [chunkBytes] at hc
      rcases List.mem_cons.mp hc with hc | hc
      · subst hc
        simp
      · exact ih _ (by simp only [List.length_drop, List.length_cons] at h ⊢; omega) c hc

/-- Helper: every sharded part holds at most 99,999 bytes. -/
theorem chunkBytes_length_le (l : List Nat) : ∀ c ∈ chunkBytes l, c.length ≤ 99999 :=
  chunkBytes_length_le_aux l.length l le_rfl

/-- Helper: the unary marker for `n` followed by anything decodes back to
`n` and the remainder. -/
theorem decodeLen_replicate (n : Nat) (l : List Nat) :
    decodeLen (List.replicate n 1 ++ 0 :: l) = some (n, l) := by
  induction n with
  | zero => rfl
  | succ n ih =>
    rw [List.replicate_succ, List.cons_append]
    simp [decodeLen, ih]

/-- Helper: the unary length marker decodes to the encoded length. -/
theorem decodeLen_encodeLen (l : List Nat) : decodeLen (encodeLen l) = some (l.length, l) :=
  decodeLen_replicate l.length l

/-- Helper: the module codec round-trips. -/
theorem decodeModule_encodeModule (rm : RegisteredModule) :
    decodeModule (encodeModule rm) = some rm := by
  obtain ⟨bs, ⟨flag⟩⟩ := rm
  cases flag <;> simp [encodeModule, decodeModule, decodeLen_encodeLen]

/-- C9: registering a not-yet-registered module stores its marshaled form
split into parts of at most 99,999 bytes each, and `GetModule` on the same
keys returns exactly the registered bytes and options; `GetModule` on a
module that was never registered fails with a not-found error. -/
theorem c9_module_roundtrip (st : RegState) (ns mid : String) (bytes : List Nat)
    (opts : ModuleOptionsG) (habs : st.modules ns mid = []) :
    getModule st ns mid = .error .moduleNotFound ∧
    registerModule st ns mid bytes opts =
      .ok (setModuleParts st ns mid (chunkBytes (encodeModule { bytes := bytes, opts := opts }))) ∧
    (∀ part ∈ (setModuleParts st ns mid
        (chunkBytes (encodeModule { bytes := bytes, opts := opts }))).modules ns mid,
      part.length ≤ 99999) ∧
    getModule (setModuleParts st ns mid
        (chunkBytes (encodeModule { bytes := bytes, opts := opts }))) ns mid =
      .ok { bytes := bytes, opts := opts } := by
  have hparts : (setModuleParts st ns mid
      (chunkBytes (encodeModule { bytes := bytes, opts := opts }))).modules ns mid =
      chunkBytes (encodeModule { bytes := bytes, opts := opts }) := by
    simp [setModuleParts]
  refine ⟨?_, ?_, ?_, ?_⟩
  · simp [getModule, habs]
  · simp [registerModule, habs, setModuleParts]
  · intro part hp
    rw [hparts] at hp
    exact chunkBytes_length_le _ part hp
  · have hne : (chunkBytes (encodeModule { bytes := bytes, opts := opts })).length ≠ 0 := by
      rw [show encodeModule { bytes := bytes, opts := opts } =
          (if opts.allowEmptyModuleBytes then 1 else 0) :: encodeLen bytes from rfl]
      rw [chunkBytes]
      simp
    simp only [getModule, hparts, if_neg hne]
    rw [chunkBytes_flatten, decodeModule_encodeModule]

/-- C9 (witness): the round-trip theorem applied to a concrete
registration on the empty registry. -/
theorem c9_module_roundtrip_witness :
    getModule regStEmpty "ns" "m" = .error .moduleNotFound ∧
    getModule (setModuleParts regStEmpty "ns" "m"
        (chunkBytes (encodeModule { bytes := [1, 2, 3], opts := { allowEmptyModuleBytes := false } })))
        "ns" "m" =
      .ok { bytes := [1, 2, 3], opts := { allowEmptyModuleBytes := false } } :=
  ⟨(c9_module_roundtrip regStEmpty "ns" "m" [1, 2, 3] { allowEmptyModuleBytes := false } rfl).1,
    (c9_module_roundtrip regStEmpty "ns" "m" [1, 2, 3] { allowEmptyModuleBytes := false } rfl).2.2.2⟩

/-- Helper: when no stored heartbeat is in the future of `vs`, the
live-server scan does not panic and returns exactly the records whose last
heartbeat is within the TTL. -/
theorem liveServersOf_eq_filter (servers : List ServerState) (vs : Int)
    (hmono : ∀ s ∈ servers, s.lastHeartbeatedAt ≤ vs) :
    liveServersOf servers vs =
      some (servers.filter (fun s => vs - s.lastHeartbeatedAt < HeartbeatTTLMicros)) := by
  induction servers with
  | nil => rfl
  | cons s rest ih =>
    have hs : s.lastHeartbeatedAt ≤ vs := hmono s (List.mem_cons_self s rest)
    rw [liveServersOf, ih (fun x hx => hmono x (List.mem_cons_of_mem s hx))]
    simp only [versionSince, if_neg (show ¬ vs - s.lastHeartbeatedAt < 0 by omega)]
    by_cases hlt : vs - s.lastHeartbeatedAt < HeartbeatTTLMicros
    · simp [List.filter_cons, hlt]
    · simp [List.filter_cons, hlt]

/-- Helper: the live-server scan over a registry state yields its live
servers. -/
theorem liveServersOf_eq_liveServers (st : RegState) (vs : Int)
    (hmono : ∀ s ∈ st.servers, s.lastHeartbeatedAt ≤ vs) :
    liveServersOf st.servers vs = some (liveServers st vs) :=
  liveServersOf_eq_filter st.servers vs hmono

/-- Helper: the placement pick is empty exactly on an empty candidate
list. -/
theorem pickMin_eq_none_iff (l : List ServerState) : pickMin l = none ↔ l = [] := by
  cases l with
  | nil => simp [pickMin]
  | cons s rest =>
    rw [pickMin]
    constructor
    · intro h
      split at h
      · exact Option.noConfusion h
      · split at h <;> exact Option.noConfusion h
    · intro h
      exact List.noConfusion h

/-- Helper: the placement pick is one of the candidates. -/
theorem pickMin_mem (l : List ServerState) (m : ServerState) (h : pickMin l = some m) :
    m ∈ l := by
  induction l generalizing m with
  | nil => simp [pickMin] at h
  | cons s rest ih =>
    rw [pickMin] at h
    split at h
    · cases h
      exact List.mem_cons_self _ _
    · rename_i m2 heq
      split at h
      · cases h
        exact List.mem_cons_self _ _
      · cases h
        exact List.mem_cons_of_mem s (ih _ heq)

/-- Helper: the placement pick has minimal `num_activated_actors` among
the candidates. -/
theorem pickMin_min (l : List ServerState) (m : ServerState) (h : pickMin l = some m) :
    ∀ x ∈ l, m.heartbeatState.numActivatedActors ≤ x.heartbeatState.numActivatedActors := by
  induction l generalizing m with
  | nil => simp [pickMin] at h
  | cons s rest ih =>
    rw [pickMin] at h
    split at h
    · rename_i heq
      have hrest : rest = [] := (pickMin_eq_none_iff rest).mp heq
      cases h
      subst hrest
      intro x hx
      simp at hx
      subst hx
      exact le_refl _
    · rename_i m2 heq
      intro x hx
      split at h
      · rename_i hle
        cases h
        rcases List.mem_cons.mp hx with rfl | hx2
        · exact le_refl _
        · exact le_trans hle (ih _ heq x hx2)
      · rename_i hgt
        cases h
        rcases List.mem_cons.mp hx with rfl | hx2
        · omega
        · exact ih _ heq x hx2

/-- Helper: with the actor present and a non-panicking heartbeat age,
`EnsureActivation` reduces to the sticky-or-place decision. -/
theorem ensureActivation_eq (st : RegState) (vs : Int) (ns aid : String) (ra : RegisteredActor)
    (hA : st.actors ns aid = some ra)
    (hnn : 0 ≤ vs -
      ((findServer st ra.activation.serverID).getD zeroServerState).lastHeartbeatedAt) :
    ensureActivation st vs ns aid =
      if stickyCond st vs ra then
        some (.ok (st,
          stickyRef ns aid ra ((findServer st ra.activation.serverID).getD zeroServerState)))
      else
        match liveServersOf st.servers vs with
        | none => none
        | some live =>
          match pickMin live with
          | none => some (.error .noLiveServers)
          | some picked =>
            some (.ok (setActivation st ns aid ra picked.serverID, placedRef ns aid ra picked)) := by
  simp only [ensureActivation, hA]
  rw [versionSince,
    if_neg (show ¬ vs -
      ((findServer st ra.activation.serverID).getD zeroServerState).lastHeartbeatedAt < 0 by
        omega)]
  rfl

/-- C4: for an existing actor, `EnsureActivation` reuses a recorded
activation whose server record exists and heartbeated within the TTL,
returning a reference that reads the server version and address from that
record and leaving the state unchanged; otherwise it restricts placement
to servers that heartbeated within the TTL, fails with a no-live-servers
error when there are none, and else picks a live server with minimal
`num_activated_actors`, writes the new activation into the actor record,
and returns a reference to it. -/
theorem c4_ensure_activation (st : RegState) (vs : Int) (ns aid : String) (ra : RegisteredActor)
    (hvs : 0 ≤ vs) (hmono : ∀ s ∈ st.servers, s.lastHeartbeatedAt ≤ vs)
    (hA : st.actors ns aid = some ra) :
    (∀ server, findServer st ra.activation.serverID = some server →
      ra.activation.serverID ≠ "" → vs - server.lastHeartbeatedAt < HeartbeatTTLMicros →
        ensureActivation st vs ns aid = some (.ok (st, stickyRef ns aid ra server))) ∧
    (¬stickyCond st vs ra → liveServers st vs = [] →
      ensureActivation st vs ns aid = some (.error .noLiveServers)) ∧
    (¬stickyCond st vs ra → ∀ picked, pickMin (liveServers st vs) = some picked →
      picked ∈ liveServers st vs ∧
      (∀ x ∈ liveServers st vs,
        picked.heartbeatState.numActivatedActors ≤ x.heartbeatState.numActivatedActors) ∧
      ensureActivation st vs ns aid =
        some (.ok (setActivation st ns aid ra picked.serverID, placedRef ns aid ra picked))) := by
  have hnn : 0 ≤ vs -
      ((findServer st ra.activation.serverID).getD zeroServerState).lastHeartbeatedAt := by
    cases hfs : findServer st ra.activation.serverID with
    | none => simpa [zeroServerState] using hvs
    | some s =>
      have := hmono s (findServer_mem st _ s hfs)
      simp only [Option.getD_some]
      omega
  refine ⟨?_, ?_, ?_⟩
  · intro server hfs hne hlt
    have hsticky : stickyCond st vs ra := by
      unfold stickyCond
      rw [hfs]
      exact ⟨hne, rfl, hlt⟩
    rw [ensureActivation_eq st vs ns aid ra hA hnn, if_pos hsticky, hfs]
    rfl
  · intro hns hlive
    rw [ensureActivation_eq st vs ns aid ra hA hnn, if_neg hns,
      liveServersOf_eq_liveServers st vs hmono, hlive]
    rfl
  · intro hns picked hpick
    refine ⟨pickMin_mem _ picked hpick, pickMin_min _ picked hpick, ?_⟩
    rw [ensureActivation_eq st vs ns aid ra hA hnn, if_neg hns,
      liveServersOf_eq_liveServers st vs hmono]
    simp only [hpick]

/-- C4 (witness): the placement theorem applied to a concrete registry:
the unactivated actor is placed on the live server with the fewest
activated actors. -/
theorem c4_ensure_activation_witness :
    ensureActivation regStC4 10 "ns" "a" =
      some (.ok
        (setActivation regStC4 "ns" "a"
          { moduleID := "m", generation := 1, activation := { serverID := "" } } "s2",
        placedRef "ns" "a"
          { moduleID := "m", generation := 1, activation := { serverID := "" } }
          { serverID := "s2", lastHeartbeatedAt := 6
            heartbeatState := { numActivatedActors := 2, address := "addr2" }
            serverVersion := 3 })) := by
  have h := (c4_ensure_activation regStC4 10 "ns" "a"
      { moduleID := "m", generation := 1, activation := { serverID := "" } }
      (by decide) (by decide) (by decide)).2.2
  exact (h (by decide)
    { serverID := "s2", lastHeartbeatedAt := 6
      heartbeatState := { numActivatedActors := 2, address := "addr2" }
      serverVersion := 3 }
    (by decide)).2.2

/-- Helper: `EnsureActivation` panics when the version stamp is behind
the heartbeat it reads (the absent-record zero value included). -/
theorem ensureActivation_panic (st : RegState) (vs : Int) (ns aid : String)
    (ra : RegisteredActor) (hA : st.actors ns aid = some ra)
    (hneg : vs -
      ((findServer st ra.activation.serverID).getD zeroServerState).lastHeartbeatedAt < 0) :
    ensureActivation st vs ns aid = none := by
  simp only [ensureActivation, hA]
  rw [versionSince, if_pos hneg]

/-- Helper: a successful `EnsureActivation` leaves the state unchanged or
rewrites only the target actor's activation. -/
theorem ensureActivation_ok_state (st : RegState) (vs : Int) (ns aid : String)
    (st2 : RegState) (ref : ActorReference)
    (h : ensureActivation st vs ns aid = some (.ok (st2, ref))) :
    st2 = st ∨ ∃ ra sid, st.actors ns aid = some ra ∧ st2 = setActivation st ns aid ra sid := by
  cases hra : st.actors ns aid with
  | none => simp [ensureActivation, hra] at h
  | some ra =>
    rcases lt_or_le (vs -
        ((findServer st ra.activation.serverID).getD zeroServerState).lastHeartbeatedAt) 0
      with hneg | hnn
    · rw [ensureActivation_panic st vs ns aid ra hra hneg] at h
      exact Option.noConfusion h
    · rw [ensureActivation_eq st vs ns aid ra hra hnn] at h
      by_cases hsc : stickyCond st vs ra
      · rw [if_pos hsc] at h
        simp only [Option.some.injEq, Except.ok.injEq, Prod.mk.injEq] at h
        exact Or.inl h.1.symm
      · rw [if_neg hsc] at h
        cases hlso : liveServersOf st.servers vs with
        | none =>
          simp only [hlso] at h
          exact Option.noConfusion h
        | some live =>
          simp only [hlso] at h
          cases hpick : pickMin live with
          | none =>
            simp only [hpick] at h
            simp at h
          | some picked =>
            simp only [hpick] at h
            simp only [Option.some.injEq, Except.ok.injEq, Prod.mk.injEq] at h
            exact Or.inr ⟨ra, picked.serverID, rfl, h.1.symm⟩

/-- Helper: a successful `EnsureActivation` never changes any actor's
stored generation. -/
theorem ensureActivation_generation (st : RegState) (vs : Int) (ns aid : String)
    (st2 : RegState) (ref : ActorReference)
    (h : ensureActivation st vs ns aid = some (.ok (st2, ref))) :
    ∀ ns2 a2, (st2.actors ns2 a2).map RegisteredActor.generation =
      (st.actors ns2 a2).map RegisteredActor.generation := by
  intro ns2 a2
  rcases ensureActivation_ok_state st vs ns aid st2 ref h with rfl | ⟨ra, sid, hra, rfl⟩
  · rfl
  · simp only [setActivation]
    by_cases hc : ns2 = ns ∧ a2 = aid
    · obtain ⟨rfl, rfl⟩ := hc
      simp [hra]
    · simp [if_neg hc]

/-- Helper: a successful `IncGeneration` bumps exactly the target actor's
generation by one. -/
theorem incGeneration_ok (st : RegState) (ns aid : String) (st2 : RegState)
    (h : incGeneration st ns aid = .ok st2) :
    ∃ ra, st.actors ns aid = some ra ∧
      st2.actors = fun ns2 a2 =>
        if ns2 = ns ∧ a2 = aid then some { ra with generation := ra.generation + 1 }
        else st.actors ns2 a2 := by
  unfold incGeneration at h
  split at h
  · exact Except.noConfusion h
  · rename_i ra hra
    simp only [Except.ok.injEq] at h
    exact ⟨ra, hra, by rw [← h]⟩

/-- Helper: one registry call never lowers the generation observable. -/
theorem applyRegOp_genObs (st : RegState) (op : RegOp) (ns aid : String) :
    genObs st ns aid ≤ genObs (applyRegOp st op) ns aid := by
  cases op with
  | incGen ns3 a3 =>
    show genObs st ns aid ≤ genObs (match incGeneration st ns3 a3 with
      | .ok st2 => st2
      | .error _ => st) ns aid
    cases hinc : incGeneration st ns3 a3 with
    | error e => exact le_refl _
    | ok st2 =>
      obtain ⟨ra, hra, hact⟩ := incGeneration_ok st ns3 a3 st2 hinc
      simp only [genObs, hact]
      by_cases hc : ns = ns3 ∧ aid = a3
      · obtain ⟨rfl, rfl⟩ := hc
        simp [hra]
      · simp [if_neg hc]
  | ensure vs ns3 a3 =>
    show genObs st ns aid ≤ genObs (match ensureActivation st vs ns3 a3 with
      | some (.ok (st2, _)) => st2
      | _ => st) ns aid
    cases hens : ensureActivation st vs ns3 a3 with
    | none => exact le_refl _
    | some r =>
      cases r with
      | error e => exact le_refl _
      | ok p =>
        have hmap := ensureActivation_generation st vs ns3 a3 p.1 p.2 (by rw [hens]) ns aid
        cases hst2 : p.1.actors ns aid with
        | none =>
          cases hst : st.actors ns aid with
          | none => simp [genObs, hst, hst2]
          | some v =>
            rw [hst2, hst] at hmap
            simp at hmap
        | some r2 =>
          cases hst : st.actors ns aid with
          | none =>
            simp only [genObs, hst, hst2]
            exact Nat.zero_le _
          | some v =>
            rw [hst2, hst] at hmap
            simp at hmap
            simp only [genObs, hst, hst2]
            omega

/-- C7: actors are created with generation 1; `IncGeneration` adds exactly
one to an existing actor's generation and is a not-found error on a
missing actor; `EnsureActivation` never changes any stored generation; and
across any sequence of `IncGeneration` and `EnsureActivation` calls the
observed generation never decreases. -/
theorem c7_generation_monotonic :
    (∀ st ns aid mid st2, createActor st ns aid mid = .ok st2 →
      st2.actors ns aid =
        some { moduleID := mid, generation := 1, activation := { serverID := "" } }) ∧
    (∀ st ns aid, st.actors ns aid = none →
      incGeneration st ns aid = .error .actorNotFound) ∧
    (∀ st ns aid ra, st.actors ns aid = some ra →
      incGeneration st ns aid = .ok (bumpGeneration st ns aid ra) ∧
      (bumpGeneration st ns aid ra).actors ns aid =
        some { ra with generation := ra.generation + 1 }) ∧
    (∀ st vs ns aid st2 ref, ensureActivation st vs ns aid = some (.ok (st2, ref)) →
      ∀ ns2 a2, (st2.actors ns2 a2).map RegisteredActor.generation =
        (st.actors ns2 a2).map RegisteredActor.generation) ∧
    (∀ (st : RegState) (l : List RegOp) (ns aid : String),
      genObs st ns aid ≤ genObs (applyRegOps st l) ns aid) := by
  refine ⟨?_, ?_, ?_, ?_, ?_⟩
  · intro st ns aid mid st2 h
    unfold createActor at h
    split_ifs at h with h1 h2
    all_goals first
      | exact Except.noConfusion h
      | (simp only [Except.ok.injEq] at h; rw [← h]; simp)
  · intro st ns aid h
    simp [incGeneration, h]
  · intro st ns aid ra h
    constructor
    · simp [incGeneration, h, bumpGeneration]
    · simp [bumpGeneration]
  · exact fun st vs ns aid st2 ref h =>
      ensureActivation_generation st vs ns aid st2 ref h
  · intro st l
    induction l generalizing st with
    | nil => intro ns aid; exact le_refl _
    | cons op rest ih =>
      intro ns aid
      exact le_trans (applyRegOp_genObs st op ns aid) (ih (applyRegOp st op) ns aid)

/-- C7 (witness): the generation theorem applied concretely: bumping the
stored actor of the fixture registry yields generation 2, and a concrete
operation history never lowers the observable. -/
theorem c7_generation_monotonic_witness :
    incGeneration regStC4 "ns" "a" =
      .ok (bumpGeneration regStC4 "ns" "a"
        { moduleID := "m", generation := 1, activation := { serverID := "" } }) ∧
    genObs regStC4 "ns" "a" ≤
      genObs (applyRegOps regStC4 [RegOp.incGen "ns" "a", RegOp.ensure 10 "ns" "a"]) "ns" "a" :=
  ⟨(c7_generation_monotonic.2.2.1 regStC4 "ns" "a"
      { moduleID := "m", generation := 1, activation := { serverID := "" } } (by decide)).1,
    c7_generation_monotonic.2.2.2.2 regStC4 [RegOp.incGen "ns" "a", RegOp.ensure 10 "ns" "a"]
      "ns" "a"⟩

/-- C10 (counterexample): the claim's precondition — the version stamp is
at least every stored `last_heartbeat_at` — holds vacuously for a registry
with no server records, yet `EnsureActivation` panics at a negative
version stamp: the actor's recorded activation names a server with no
record, so the code compares against the zero value `last_heartbeat_at =
0`, which no stored record bounds. -/
theorem c10_panic_counterexample :
    (∀ s ∈ regStC10.servers, s.lastHeartbeatedAt ≤ (-1 : Int)) ∧
    ensureActivation regStC10 (-1) "ns" "a" = none := by
  constructor
  · intro s hs
    simp [regStC10] at hs
  · rfl

/-- C10 (amended): `versionSince` panics exactly when the current version
stamp is below the stored `last_heartbeat_at`; and when the version stamp
is nonnegative (covering the zero value read for an absent server record)
and at least every stored `last_heartbeat_at`, both `Heartbeat` and
`EnsureActivation` are total — the panic branch is unreachable. -/
theorem c10_versionsince_totality (st : RegState) (vs : Int) (ns aid sid : String)
    (hb : HeartbeatStateG) (hvs : 0 ≤ vs)
    (hmono : ∀ s ∈ st.servers, s.lastHeartbeatedAt ≤ vs) :
    (∀ curr prev : Int, versionSince curr prev = none ↔ curr < prev) ∧
    (heartbeat st vs sid hb).isSome ∧
    (ensureActivation st vs ns aid).isSome := by
  refine ⟨?_, ?_, ?_⟩
  · intro curr prev
    unfold versionSince
    split_ifs with h <;> simp <;> omega
  · unfold heartbeat
    cases hfs : findServer st sid with
    | none =>
      simp only [hfs]
      rw [versionSince, if_neg (by omega : ¬ vs - vs < 0)]
      simp
    | some s =>
      have hle := hmono s (findServer_mem st sid s hfs)
      simp only [hfs]
      rw [versionSince, if_neg (by omega : ¬ vs - s.lastHeartbeatedAt < 0)]
      simp
  · cases hra : st.actors ns aid with
    | none => simp [ensureActivation, hra]
    | some ra =>
      have hnn : 0 ≤ vs -
          ((findServer st ra.activation.serverID).getD zeroServerState).lastHeartbeatedAt := by
        cases hfs : findServer st ra.activation.serverID with
        | none => simpa [zeroServerState] using hvs
        | some s =>
          have := hmono s (findServer_mem st _ s hfs)
          simp only [Option.getD_some]
          omega
      rw [ensureActivation_eq st vs ns aid ra hra hnn]
      by_cases hsc : stickyCond st vs ra
      · simp [if_pos hsc]
      · rw [if_neg hsc, liveServersOf_eq_liveServers st vs hmono]
        cases hpick : pickMin (liveServers st vs) <;> simp [hpick]

/-- C10 (witness): the totality theorem applied at a concrete registry
and version stamp. -/
theorem c10_versionsince_totality_witness :
    (heartbeat regStC4 10 "s1" hbW).isSome ∧ (ensureActivation regStC4 10 "ns" "a").isSome :=
  ⟨(c10_versionsince_totality regStC4 10 "ns" "a" "s1" hbW (by decide) (by decide)).2.1,
    (c10_versionsince_totality regStC4 10 "ns" "a" "s1" hbW (by decide) (by decide)).2.2⟩
